import Mathlib

/-!
Shallow embedding of the Thinkific course monitoring bot (src/main.js)
and verification of the frozen claims about it.

The embedding models the pure data flow of one monitoring cycle:
content scraping per list node, change detection against the persisted
catalog (the "database"), database derivation, sequential notification
dispatch with fail-fast abort, and the commit decision of
CourseMonitor.check.  Effectful collaborators (the browser driver, the
HTTP sink, the filesystem) are modelled by explicit outcome values:
the sink by a Boolean success oracle per send, navigation by an
Except value, and file IO by an outcome enumeration, matching how the
source wraps each of them in try/catch.
-/

set_option autoImplicit false

namespace CourseBot

/- Content type labels, exactly the CONTENT_TYPES constant of the source. -/
namespace CONTENT_TYPES

def VIDEO : String := "🎥 Vidéo"

def TEXT : String := "📄 Lecture"

def QUIZ : String := "❓ Quiz"

def OTHER : String := "Autre"

end CONTENT_TYPES

/- Event type labels, exactly the EVENT_TYPES constant of the source. -/
namespace EVENT_TYPES

def NEW : String := "NEW"

def UPDATE : String := "UPDATE"

end EVENT_TYPES

/-- A content item as built by ContentScraper.scrapeContent:
id, title, type label and absolute url. -/
structure Item where
  id : String
  title : String
  type : String
  url : String
deriving DecidableEq, Repr

/-- A persisted record of the database file: the projection
that ChangeDetector.updateDatabase stores per item id. -/
structure StoredRecord where
  title : String
  type : String
deriving DecidableEq, Repr

/-- The database (the persisted Catalog): a JS object keyed by item id,
modelled as an association list with unique keys. -/
abbrev Database := List (String × StoredRecord)

/-- Property access database[id] of the source: the record stored
under a key, none when the key is absent. -/
def dbLookup : Database → String → Option StoredRecord
  | [], _ => none
  | (k, v) :: rest, id => if k = id then some v else dbLookup rest id

/-- Property assignment database[id] = rec of the source: replaces the
binding when the key exists, otherwise appends it. -/
def dbSet : Database → String → StoredRecord → Database
  | [], id, rec => [(id, rec)]
  | (k, v) :: rest, id, rec =>
      if k = id then (id, rec) :: rest else (k, v) :: dbSet rest id rec

/-- One element of the actions array built by
ChangeDetector.detectChanges: an event type label plus the item. -/
structure Action where
  type : String
  data : Item
deriving DecidableEq, Repr

/-- Loop body of ChangeDetector.detectChanges for a single item:
absent id pushes a NEW action; a stored record whose type differs,
is the Text label, and whose current type is the Video label pushes
an UPDATE action; every other case pushes nothing. -/
def eventFor (database : Database) (item : Item) : Option Action :=
  match dbLookup database item.id with
  | none => some { type := EVENT_TYPES.NEW, data := item }
  | some stored =>
      if stored.type ≠ item.type ∧ stored.type = CONTENT_TYPES.TEXT ∧
          item.type = CONTENT_TYPES.VIDEO then
        some { type := EVENT_TYPES.UPDATE, data := item }
      else
        none

/-- ChangeDetector.detectChanges: iterates the current items in order,
pushing the action produced for each item, if any. -/
def detectChanges : List Item → Database → List Action
  | [], _ => []
  | item :: rest, database =>
      match eventFor database item with
      | some action => action :: detectChanges rest database
      | none => detectChanges rest database

/-- Loop body of ChangeDetector.updateDatabase: the assignment
database[item.id] = projection of one iteration. -/
def dbInsertItem (db : Database) (item : Item) : Database :=
  dbSet db item.id ⟨item.title, item.type⟩

/-- ChangeDetector.updateDatabase: starts from an empty object and
assigns the title and type projection of every current item under its
id, in list order. -/
def updateDatabase (items : List Item) : Database :=
  items.foldl dbInsertItem []

/-- Outcome of CourseMonitor.processActions: either every action was
sent, or the loop raised at the first failed send, after having sent
exactly the listed prefix. -/
inductive DispatchResult where
  | allSent (sent : List Action)
  | failedAt (sent : List Action) (failed : Action)
deriving DecidableEq, Repr

/-- CourseMonitor.processActions: sends the actions one by one in
order; NotificationService.send throws on a non-success sink response,
which aborts the loop.  The sink response per action is modelled by
the oracle sendOk. -/
def processActions (sendOk : Action → Bool) : List Action → DispatchResult
  | [] => .allSent []
  | action :: rest =>
      if sendOk action then
        match processActions sendOk rest with
        | .allSent sent => .allSent (action :: sent)
        | .failedAt sent failed => .failedAt (action :: sent) failed
      else
        .failedAt [] action

/-- Observable outcome of one CourseMonitor.check cycle: the actions
that were sent, the database state after the cycle, and whether the
database file was written this cycle. -/
structure CheckResult where
  sent : List Action
  database : Database
  committed : Bool
deriving DecidableEq, Repr

/-- CourseMonitor.check, from the point where the current items and
the database are in hand: detect changes; when no action was produced,
do nothing; on a first run (empty database) skip dispatch and write
the derived database; otherwise dispatch and, only when every send
succeeded, write the derived database.  A send failure propagates to
the top-level catch, leaving the database file untouched. -/
def check (currentItems : List Item) (database : Database)
    (sendOk : Action → Bool) : CheckResult :=
  if (detectChanges currentItems database).isEmpty then
    { sent := [], database := database, committed := false }
  else if database.isEmpty then
    { sent := [], database := updateDatabase currentItems, committed := true }
  else
    match processActions sendOk (detectChanges currentItems database) with
    | .allSent sent =>
        { sent := sent, database := updateDatabase currentItems, committed := true }
    | .failedAt sent _ =>
        { sent := sent, database := database, committed := false }

/-- Substring test over character lists, modelling JS String.includes:
true exactly when the needle occurs contiguously in the haystack. -/
def containsSub (needle : List Char) : List Char → Bool
  | [] => needle.isEmpty
  | c :: rest => needle.isPrefixOf (c :: rest) || containsSub needle rest

/-- JS String.includes on strings. -/
def stringIncludes (hay needle : String) : Bool :=
  containsSub needle.data hay.data

/-- ContentScraper.identifyContentType: classifies by keyword in the
details text or path marker in the url, in fixed priority order
video, text, quiz, with Other as the default. -/
def identifyContentType (details url : String) : String :=
  if stringIncludes details "Video" || stringIncludes url "/lessons/" then
    CONTENT_TYPES.VIDEO
  else if stringIncludes details "Text" || stringIncludes url "/texts/" then
    CONTENT_TYPES.TEXT
  else if stringIncludes details "Quiz" || stringIncludes url "/quizzes/" then
    CONTENT_TYPES.QUIZ
  else
    CONTENT_TYPES.OTHER

/-- JS String.trim on the title text: removes whitespace characters from
both ends of the string. -/
def jsTrim (s : String) : String :=
  String.mk (((s.data.dropWhile Char.isWhitespace).reverse.dropWhile
    Char.isWhitespace).reverse)

/-- First match of the regex used on the link target, a slash followed
by at least one digit: returns the captured maximal digit run after the
first such slash, or none when no slash is directly followed by a digit. -/
def matchSlashDigits : List Char → Option String
  | [] => none
  | c :: rest =>
      if c = '/' then
        let run := rest.takeWhile Char.isDigit
        if run.isEmpty then matchSlashDigits rest else some (String.mk run)
      else
        matchSlashDigits rest

/-- One list node of the rendered content page, as seen by the each
callback of ContentScraper.scrapeContent: the link target of the node
(absent when the element has no href attribute), the own text of the
title element with nested element text removed and before trimming,
and the details text. -/
structure Node where
  href : Option String
  titleRaw : String
  details : String
deriving DecidableEq, Repr

/-- Body of the each callback of ContentScraper.scrapeContent for one
node: a node without an href, or whose href has no slash-digit match,
is skipped; otherwise the digit run is the id, the trimmed title
defaults to the sentinel when empty, the type is classified and the
url is resolved against the base url. -/
def scrapeItem (baseUrl : String) (node : Node) : Option Item :=
  match node.href with
  | none => none
  | some href =>
      match matchSlashDigits href.data with
      | none => none
      | some id =>
          let trimmed := jsTrim node.titleRaw
          let title := if trimmed = "" then "Unknown Title" else trimmed
          some { id := id, title := title,
                 type := identifyContentType node.details href,
                 url := baseUrl ++ href }

/-- ContentScraper.scrapeContent after the page html is in hand:
pushes the item produced for each list node in document order,
skipping nodes that produce none. -/
def scrapeContent (baseUrl : String) : List Node → List Item
  | [] => []
  | node :: rest =>
      match scrapeItem baseUrl node with
      | some item => item :: scrapeContent baseUrl rest
      | none => scrapeContent baseUrl rest

/-- One ld+json script block of a frame, as consumed by the evaluate
callback of ContentScraper.extractThumbnail: either its text fails to
parse as JSON, or it parses with an optional thumbnailUrl field. -/
inductive ScriptBlock where
  | invalid
  | valid (thumbnailUrl : Option String)
deriving DecidableEq, Repr

/-- The thumbnail a single script block yields: none for unparseable
JSON, none for an absent or falsy (empty) thumbnailUrl field, and the
field value otherwise. -/
def scriptThumb : ScriptBlock → Option String
  | .invalid => none
  | .valid none => none
  | .valid (some u) => if u = "" then none else some u

/-- The evaluate callback of extractThumbnail inside one frame: scans
the script blocks in document order and returns the first truthy
thumbnailUrl, or null. -/
def frameThumbnail : List ScriptBlock → Option String
  | [] => none
  | script :: rest =>
      match scriptThumb script with
      | some u => some u
      | none => frameThumbnail rest

/-- Frame loop of extractThumbnail: returns the first frame result
that is truthy, in frame order, or null after the last frame. -/
def firstThumb : List (List ScriptBlock) → Option String
  | [] => none
  | frame :: rest =>
      match frameThumbnail frame with
      | some u => some u
      | none => firstThumb rest

/-- ContentScraper.extractThumbnail: navigation and settle are
modelled by an Except value holding the frames of the loaded page on
success.  Any navigation error is caught and yields null; otherwise
the frames are scanned in order. -/
def extractThumbnail (nav : Except String (List (List ScriptBlock))) :
    Option String :=
  match nav with
  | .error _ => none
  | .ok frames => firstThumb frames

/-- Outcome of attempting to read the database file, as distinguished
by readJSON of the source: the file is missing, reading it raises,
its content fails to parse as JSON, or it parses to a database value. -/
inductive FileState where
  | missing
  | unreadable
  | invalid
  | valid (content : Database)
deriving DecidableEq, Repr

/-- readJSON of the source, applied to the database file: a missing
file returns the empty object directly, a read or parse error is
caught, logged as a warning and degraded to the empty object, and
only a successful parse returns the stored content. -/
def readJSON : FileState → Database
  | .missing => []
  | .unreadable => []
  | .invalid => []
  | .valid content => content

/-- Outcome of the underlying file write attempted by writeJSON. -/
inductive WriteResult where
  | ok
  | ioError (msg : String)
deriving DecidableEq, Repr

/-- writeJSON of the source: a successful write returns normally; a
write error is logged and then rethrown, so it propagates to the
caller (the commit step of the cycle). -/
def writeJSON : WriteResult → Except String Unit
  | .ok => .ok ()
  | .ioError msg => .error msg

/-! Helper lemmas about the embedded operations. -/

theorem eventFor_new {database : Database} {item : Item}
    (h : dbLookup database item.id = none) :
    eventFor database item = some { type := EVENT_TYPES.NEW, data := item } := by
  unfold eventFor
  rw [h]

theorem eventFor_upgrade {database : Database} {item : Item} {stored : StoredRecord}
    (h : dbLookup database item.id = some stored)
    (ht : stored.type = CONTENT_TYPES.TEXT) (hv : item.type = CONTENT_TYPES.VIDEO) :
    eventFor database item = some { type := EVENT_TYPES.UPDATE, data := item } := by
  unfold eventFor
  rw [h]
  show (if stored.type ≠ item.type ∧ stored.type = CONTENT_TYPES.TEXT ∧
      item.type = CONTENT_TYPES.VIDEO then
      some ({ type := EVENT_TYPES.UPDATE, data := item } : Action) else none) =
    some ({ type := EVENT_TYPES.UPDATE, data := item } : Action)
  rw [if_pos ⟨by rw [ht, hv]; decide, ht, hv⟩]

theorem eventFor_silent {database : Database} {item : Item} {stored : StoredRecord}
    (h : dbLookup database item.id = some stored)
    (hn : ¬(stored.type = CONTENT_TYPES.TEXT ∧ item.type = CONTENT_TYPES.VIDEO)) :
    eventFor database item = none := by
  unfold eventFor
  rw [h]
  show (if stored.type ≠ item.type ∧ stored.type = CONTENT_TYPES.TEXT ∧
      item.type = CONTENT_TYPES.VIDEO then
      some ({ type := EVENT_TYPES.UPDATE, data := item } : Action) else none) = none
  rw [if_neg (fun hc => hn ⟨hc.2.1, hc.2.2⟩)]

theorem eventFor_same {database : Database} {item : Item} {stored : StoredRecord}
    (h : dbLookup database item.id = some stored)
    (ht : stored.type = item.type) :
    eventFor database item = none := by
  unfold eventFor
  rw [h]
  show (if stored.type ≠ item.type ∧ stored.type = CONTENT_TYPES.TEXT ∧
      item.type = CONTENT_TYPES.VIDEO then
      some ({ type := EVENT_TYPES.UPDATE, data := item } : Action) else none) = none
  rw [if_neg (fun hc => hc.1 ht)]

theorem eventFor_data {database : Database} {item : Item} {action : Action}
    (h : eventFor database item = some action) : action.data = item := by
  unfold eventFor at h
  split at h
  · injection h with h2
    subst h2
    rfl
  · split at h
    · injection h with h2
      subst h2
      rfl
    · exact Option.noConfusion h

theorem eventFor_update_inv {database : Database} {x : Item} {action : Action}
    (h : eventFor database x = some action) (ht : action.type = EVENT_TYPES.UPDATE) :
    action.data = x ∧ ∃ stored, dbLookup database x.id = some stored ∧
      stored.type = CONTENT_TYPES.TEXT ∧ x.type = CONTENT_TYPES.VIDEO := by
  unfold eventFor at h
  split at h
  · injection h with h2
    subst h2
    simp only [EVENT_TYPES.NEW, EVENT_TYPES.UPDATE] at ht
    exact absurd ht (by decide)
  · rename_i stored hdb
    split at h
    · rename_i hcond
      injection h with h2
      subst h2
      exact ⟨rfl, stored, hdb, hcond.2.1, hcond.2.2⟩
    · exact Option.noConfusion h

theorem detectChanges_eq_filterMap (L : List Item) (database : Database) :
    detectChanges L database = L.filterMap (eventFor database) := by
  induction L with
  | nil => rfl
  | cons item rest ih =>
      simp only [detectChanges, List.filterMap_cons]
      cases eventFor database item <;> simp [ih]

theorem mem_detectChanges {action : Action} {L : List Item} {database : Database} :
    action ∈ detectChanges L database ↔
      ∃ item, item ∈ L ∧ eventFor database item = some action := by
  rw [detectChanges_eq_filterMap]
  exact List.mem_filterMap

theorem detectChanges_empty_db (L : List Item) :
    detectChanges L [] =
      L.map (fun item => { type := EVENT_TYPES.NEW, data := item }) := by
  induction L with
  | nil => rfl
  | cons item rest ih => simp [detectChanges, eventFor, dbLookup, ih]

theorem detectChanges_data_sublist (L : List Item) (database : Database) :
    List.Sublist ((detectChanges L database).map Action.data) L := by
  induction L with
  | nil => simp [detectChanges]
  | cons item rest ih =>
      simp only [detectChanges]
      cases h : eventFor database item with
      | none => exact ih.cons item
      | some action =>
          simp only [List.map_cons]
          rw [eventFor_data h]
          exact ih.cons₂ item

theorem processActions_allSent {sendOk : Action → Bool} :
    ∀ {actions sent : List Action},
      processActions sendOk actions = .allSent sent → sent = actions := by
  intro actions
  induction actions with
  | nil =>
      intro sent h
      injection h with h1
      exact h1.symm
  | cons action rest ih =>
      intro sent h
      unfold processActions at h
      by_cases hs : sendOk action = true
      · rw [if_pos hs] at h
        cases hrec : processActions sendOk rest with
        | allSent s2 =>
            rw [hrec] at h
            injection h with h1
            rw [← h1, ih hrec]
        | failedAt s2 f =>
            rw [hrec] at h
            exact DispatchResult.noConfusion h
      · rw [if_neg hs] at h
        exact DispatchResult.noConfusion h

theorem processActions_failedAt {sendOk : Action → Bool} :
    ∀ {actions sent : List Action} {failed : Action},
      processActions sendOk actions = .failedAt sent failed →
      (∃ rest, actions = sent ++ failed :: rest) ∧
      (∀ a ∈ sent, sendOk a = true) ∧ sendOk failed = false := by
  intro actions
  induction actions with
  | nil =>
      intro sent failed h
      exact DispatchResult.noConfusion h
  | cons action rest ih =>
      intro sent failed h
      unfold processActions at h
      by_cases hs : sendOk action = true
      · rw [if_pos hs] at h
        cases hrec : processActions sendOk rest with
        | allSent s2 =>
            rw [hrec] at h
            exact DispatchResult.noConfusion h
        | failedAt s2 f =>
            rw [hrec] at h
            injection h with h1 h2
            subst h1
            subst h2
            obtain ⟨⟨r, hr⟩, hall, hf⟩ := ih hrec
            refine ⟨⟨r, by rw [hr, List.cons_append]⟩, ?_, hf⟩
            intro a ha
            rcases List.mem_cons.mp ha with ha1 | ha1
            · rw [ha1]; exact hs
            · exact hall a ha1
      · rw [if_neg hs] at h
        injection h with h1 h2
        subst h1
        subst h2
        refine ⟨⟨rest, rfl⟩, ?_, by simpa using hs⟩
        intro a ha
        exact absurd ha (List.not_mem_nil a)

theorem processActions_failedAt_ne_nil {sendOk : Action → Bool}
    {actions sent : List Action} {failed : Action}
    (h : processActions sendOk actions = .failedAt sent failed) :
    actions ≠ [] := by
  intro h0
  rw [h0] at h
  exact DispatchResult.noConfusion h

theorem check_no_actions {currentItems : List Item} {database : Database}
    (sendOk : Action → Bool) (h : detectChanges currentItems database = []) :
    check currentItems database sendOk =
      { sent := [], database := database, committed := false } := by
  unfold check
  rw [h]
  rfl

theorem check_first_run {currentItems : List Item} (sendOk : Action → Bool)
    (h : detectChanges currentItems [] ≠ []) :
    check currentItems [] sendOk =
      { sent := [], database := updateDatabase currentItems, committed := true } := by
  unfold check
  rw [if_neg (by simpa [List.isEmpty_iff] using h)]
  rfl

theorem check_dispatch_ok {currentItems : List Item} {database : Database}
    {sendOk : Action → Bool} {sent : List Action}
    (hdb : database ≠ [])
    (hact : detectChanges currentItems database ≠ [])
    (h : processActions sendOk (detectChanges currentItems database) = .allSent sent) :
    check currentItems database sendOk =
      { sent := sent, database := updateDatabase currentItems, committed := true } := by
  unfold check
  rw [if_neg (by simpa [List.isEmpty_iff] using hact),
    if_neg (by simpa [List.isEmpty_iff] using hdb), h]

theorem check_dispatch_fail {currentItems : List Item} {database : Database}
    {sendOk : Action → Bool} {sent : List Action} {failed : Action}
    (hdb : database ≠ [])
    (h : processActions sendOk (detectChanges currentItems database)
      = .failedAt sent failed) :
    check currentItems database sendOk =
      { sent := sent, database := database, committed := false } := by
  have hact : detectChanges currentItems database ≠ [] :=
    processActions_failedAt_ne_nil h
  unfold check
  rw [if_neg (by simpa [List.isEmpty_iff] using hact),
    if_neg (by simpa [List.isEmpty_iff] using hdb), h]

theorem dbLookup_dbSet_self (db : Database) (id : String) (rec : StoredRecord) :
    dbLookup (dbSet db id rec) id = some rec := by
  induction db with
  | nil => simp [dbSet, dbLookup]
  | cons p rest ih =>
      obtain ⟨k, v⟩ := p
      by_cases hk : k = id
      · simp [dbSet, hk, dbLookup]
      · simp [dbSet, hk, dbLookup, ih]

theorem dbLookup_dbSet_ne (db : Database) (id id2 : String) (rec : StoredRecord)
    (h : id2 ≠ id) : dbLookup (dbSet db id rec) id2 = dbLookup db id2 := by
  induction db with
  | nil => simp [dbSet, dbLookup, Ne.symm h]
  | cons p rest ih =>
      obtain ⟨k, v⟩ := p
      by_cases hk : k = id
      · subst hk
        simp [dbSet, dbLookup, Ne.symm h]
      · by_cases hk2 : k = id2
        · simp [dbSet, hk, dbLookup, hk2, h]
        · simp [dbSet, hk, dbLookup, hk2, ih]

theorem foldl_dbInsertItem_notMem (items : List Item) (id : String) :
    ∀ db : Database, id ∉ items.map Item.id →
      dbLookup (items.foldl dbInsertItem db) id = dbLookup db id := by
  induction items with
  | nil => intro db _; rfl
  | cons item rest ih =>
      intro db h
      rw [List.map_cons, List.mem_cons] at h
      push_neg at h
      rw [List.foldl_cons, ih _ h.2, dbInsertItem,
        dbLookup_dbSet_ne _ _ _ _ h.1]

theorem foldl_dbInsertItem_isSome (items : List Item) (id : String) :
    ∀ db : Database, id ∈ items.map Item.id →
      (dbLookup (items.foldl dbInsertItem db) id).isSome = true := by
  induction items with
  | nil => intro db h; exact absurd h (List.not_mem_nil id)
  | cons item rest ih =>
      intro db h
      rw [List.foldl_cons]
      by_cases h2 : id ∈ rest.map Item.id
      · exact ih _ h2
      · have h1 : id = item.id := by
          rw [List.map_cons, List.mem_cons] at h
          rcases h with h1 | h1
          · exact h1
          · exact absurd h1 h2
        rw [foldl_dbInsertItem_notMem rest id _ h2, h1, dbInsertItem,
          dbLookup_dbSet_self]
        rfl

theorem foldl_dbInsertItem_mem_nodup (items : List Item) :
    ∀ db : Database, (items.map Item.id).Nodup →
      ∀ item ∈ items, dbLookup (items.foldl dbInsertItem db) item.id
        = some ⟨item.title, item.type⟩ := by
  induction items with
  | nil => intro db _ item h; exact absurd h (List.not_mem_nil item)
  | cons x rest ih =>
      intro db hnd item hmem
      rw [List.map_cons, List.nodup_cons] at hnd
      rw [List.foldl_cons]
      rcases List.mem_cons.mp hmem with h | h
      · subst h
        rw [foldl_dbInsertItem_notMem rest item.id _ hnd.1, dbInsertItem,
          dbLookup_dbSet_self]
      · exact ih _ hnd.2 item h

theorem updateDatabase_def (items : List Item) :
    updateDatabase items = items.foldl dbInsertItem [] := rfl

theorem matchSlashDigits_none_of_noDigits (s : List Char)
    (h : ∀ c ∈ s, c.isDigit = false) : matchSlashDigits s = none := by
  induction s with
  | nil => rfl
  | cons c rest ih =>
      have hrest : ∀ c2 ∈ rest, c2.isDigit = false :=
        fun c2 hc2 => h c2 (List.mem_cons_of_mem c hc2)
      unfold matchSlashDigits
      by_cases hc : c = '/'
      · rw [if_pos hc]
        have hrun : rest.takeWhile Char.isDigit = [] := by
          cases rest with
          | nil => rfl
          | cons d rs =>
              simp [List.takeWhile_cons, hrest d (List.mem_cons_self d rs)]
        simp only [hrun, List.isEmpty_nil, if_pos]
        exact ih hrest
      · rw [if_neg hc]
        exact ih hrest

theorem frameThumbnail_eq_head (scripts : List ScriptBlock) :
    frameThumbnail scripts = (scripts.filterMap scriptThumb).head? := by
  induction scripts with
  | nil => rfl
  | cons s rest ih =>
      simp only [frameThumbnail, List.filterMap_cons]
      cases scriptThumb s with
      | none => exact ih
      | some u => rfl

theorem firstThumb_eq_head (frames : List (List ScriptBlock)) :
    firstThumb frames
      = ((frames.map (fun f => f.filterMap scriptThumb)).flatten).head? := by
  induction frames with
  | nil => rfl
  | cons f rest ih =>
      simp only [firstThumb, List.map_cons, List.flatten_cons,
        frameThumbnail_eq_head]
      cases hf : f.filterMap scriptThumb with
      | nil => simpa using ih
      | cons u us => rfl

/-! Claim theorems. -/

/-- C1: detectChanges emits an UPDATE (Upgraded) event for an item exactly
when the item id is present in the database, the stored type is the Text
label and the current type is the Video label; and for an item whose stored
type differs from its current type in any other way, no event at all is
emitted for that item. -/
theorem detectChanges_update_iff (L : List Item) (database : Database)
    (item : Item) :
    (({ type := EVENT_TYPES.UPDATE, data := item } : Action) ∈
        detectChanges L database ↔
      item ∈ L ∧ ∃ stored, dbLookup database item.id = some stored ∧
        stored.type = CONTENT_TYPES.TEXT ∧
        item.type = CONTENT_TYPES.VIDEO) ∧
    (∀ stored, dbLookup database item.id = some stored →
      stored.type ≠ item.type →
      ¬(stored.type = CONTENT_TYPES.TEXT ∧ item.type = CONTENT_TYPES.VIDEO) →
      ∀ action ∈ detectChanges L database, action.data ≠ item) := by
  constructor
  · constructor
    · intro h
      rcases mem_detectChanges.mp h with ⟨x, hx, hev⟩
      rcases eventFor_update_inv hev rfl with ⟨hdata, stored, hdb, ht, hv⟩
      have hxi : x = item := hdata.symm ▸ rfl
      subst hxi
      exact ⟨hx, stored, hdb, ht, hv⟩
    · rintro ⟨hmem, stored, hlook, ht, hv⟩
      exact mem_detectChanges.mpr ⟨item, hmem, eventFor_upgrade hlook ht hv⟩
  · intro stored hlook _ hnot action hact heq
    rcases mem_detectChanges.mp hact with ⟨x, _, hev⟩
    have hdx : x = item := by rw [← eventFor_data hev, heq]
    subst hdx
    rw [eventFor_silent hlook hnot] at hev
    exact Option.noConfusion hev

/-- C1 witness: a concrete Text to Video transition produces the UPDATE
event for that item. -/
theorem detectChanges_update_iff_witness :
    ({ type := EVENT_TYPES.UPDATE,
       data := ⟨"7", "T", CONTENT_TYPES.VIDEO, "u"⟩ } : Action) ∈
      detectChanges [(⟨"7", "T", CONTENT_TYPES.VIDEO, "u"⟩ : Item)]
        [("7", (⟨"T", CONTENT_TYPES.TEXT⟩ : StoredRecord))] :=
  ((detectChanges_update_iff
      [(⟨"7", "T", CONTENT_TYPES.VIDEO, "u"⟩ : Item)]
      [("7", (⟨"T", CONTENT_TYPES.TEXT⟩ : StoredRecord))]
      ⟨"7", "T", CONTENT_TYPES.VIDEO, "u"⟩).1).mpr
    ⟨by decide, ⟨"T", CONTENT_TYPES.TEXT⟩, by decide, by decide, by decide⟩

/-- C2: against the empty database, detectChanges yields exactly one NEW
event per item, in list order; and in general the items carried by the
output events form a subsequence of the input list, so events are never
reordered, resorted or grouped. -/
theorem detectChanges_new_and_order (L : List Item) (database : Database) :
    detectChanges L ([] : Database)
      = L.map (fun item => { type := EVENT_TYPES.NEW, data := item }) ∧
    List.Sublist ((detectChanges L database).map Action.data) L :=
  ⟨detectChanges_empty_db L, detectChanges_data_sublist L database⟩

/-- C10: an item whose id is stored with the same type as its current type
produces no event, even when the stored title differs from the current
title; a title-only change is invisible to detectChanges. -/
theorem detectChanges_title_only_invisible (L : List Item) (database : Database)
    (item : Item) (stored : StoredRecord)
    (hlook : dbLookup database item.id = some stored)
    (htype : stored.type = item.type)
    (htitle : stored.title ≠ item.title) :
    ∀ action ∈ detectChanges L database, action.data ≠ item := by
  intro action hact heq
  rcases mem_detectChanges.mp hact with ⟨x, _, hev⟩
  have hdx : x = item := by rw [← eventFor_data hev, heq]
  subst hdx
  rw [eventFor_same hlook htype] at hev
  exact Option.noConfusion hev

/-- C10 witness: with a stored record differing only in title, the NEW
action for the item is not among the detected changes. -/
theorem detectChanges_title_only_invisible_witness :
    ({ type := EVENT_TYPES.NEW,
       data := ⟨"1", "B", CONTENT_TYPES.TEXT, "u"⟩ } : Action) ∉
      detectChanges [(⟨"1", "B", CONTENT_TYPES.TEXT, "u"⟩ : Item)]
        [("1", (⟨"A", CONTENT_TYPES.TEXT⟩ : StoredRecord))] :=
  fun hmem =>
    detectChanges_title_only_invisible
      [(⟨"1", "B", CONTENT_TYPES.TEXT, "u"⟩ : Item)]
      [("1", (⟨"A", CONTENT_TYPES.TEXT⟩ : StoredRecord))]
      ⟨"1", "B", CONTENT_TYPES.TEXT, "u"⟩
      ⟨"A", CONTENT_TYPES.TEXT⟩
      (by decide) (by decide) (by decide)
      { type := EVENT_TYPES.NEW, data := ⟨"1", "B", CONTENT_TYPES.TEXT, "u"⟩ }
      hmem rfl

/-- C3: processActions sends the detected events strictly in input order:
when it completes, it sent exactly the whole batch in order; when the sink
fails a send, the events actually sent are precisely the prefix before the
failing event, every later event is unsent, and in a non-bootstrap cycle
the database is not committed, so the next cycle re-detects exactly the
same events from the unchanged database. -/
theorem processActions_fail_fast (sendOk : Action → Bool)
    (currentItems : List Item) (database : Database) :
    (∀ sent, processActions sendOk (detectChanges currentItems database)
        = .allSent sent →
      sent = detectChanges currentItems database) ∧
    (∀ sent failed,
      processActions sendOk (detectChanges currentItems database)
        = .failedAt sent failed →
      (∃ rest, detectChanges currentItems database = sent ++ failed :: rest) ∧
      (∀ a ∈ sent, sendOk a = true) ∧ sendOk failed = false ∧
      (database ≠ [] →
        (check currentItems database sendOk).sent = sent ∧
        (check currentItems database sendOk).committed = false ∧
        (check currentItems database sendOk).database = database ∧
        detectChanges currentItems (check currentItems database sendOk).database
          = detectChanges currentItems database)) := by
  constructor
  · intro sent h
    exact processActions_allSent h
  · intro sent failed h
    obtain ⟨hdecomp, hall, hf⟩ := processActions_failedAt h
    refine ⟨hdecomp, hall, hf, fun hdb => ?_⟩
    rw [check_dispatch_fail hdb h]
    exact ⟨rfl, rfl, rfl, rfl⟩

/-- C3 witness: three NEW events queued against a non-empty database, the
sink failing on the second send: only the first event is sent, the cycle
commits nothing and the database is unchanged. -/
theorem processActions_fail_fast_witness :
    (check [(⟨"1", "A", CONTENT_TYPES.TEXT, "u1"⟩ : Item),
            (⟨"2", "B", CONTENT_TYPES.TEXT, "u2"⟩ : Item),
            (⟨"3", "C", CONTENT_TYPES.TEXT, "u3"⟩ : Item)]
        [("9", (⟨"Z", CONTENT_TYPES.TEXT⟩ : StoredRecord))]
        (fun a => a.data.id != "2")).sent
      = [{ type := EVENT_TYPES.NEW,
           data := ⟨"1", "A", CONTENT_TYPES.TEXT, "u1"⟩ }] ∧
    (check [(⟨"1", "A", CONTENT_TYPES.TEXT, "u1"⟩ : Item),
            (⟨"2", "B", CONTENT_TYPES.TEXT, "u2"⟩ : Item),
            (⟨"3", "C", CONTENT_TYPES.TEXT, "u3"⟩ : Item)]
        [("9", (⟨"Z", CONTENT_TYPES.TEXT⟩ : StoredRecord))]
        (fun a => a.data.id != "2")).committed = false := by
  have h := (processActions_fail_fast (fun a => a.data.id != "2")
      [(⟨"1", "A", CONTENT_TYPES.TEXT, "u1"⟩ : Item),
       (⟨"2", "B", CONTENT_TYPES.TEXT, "u2"⟩ : Item),
       (⟨"3", "C", CONTENT_TYPES.TEXT, "u3"⟩ : Item)]
      [("9", (⟨"Z", CONTENT_TYPES.TEXT⟩ : StoredRecord))]).2
    [{ type := EVENT_TYPES.NEW, data := ⟨"1", "A", CONTENT_TYPES.TEXT, "u1"⟩ }]
    { type := EVENT_TYPES.NEW, data := ⟨"2", "B", CONTENT_TYPES.TEXT, "u2"⟩ }
    (by decide)
  have h2 := h.2.2.2 (by decide)
  exact ⟨h2.1, h2.2.1⟩

/-- C4 counterexample: a bootstrap cycle whose current item list is empty
commits nothing at all, contradicting the claim that a bootstrap cycle
commits a full catalog regardless of item count. -/
theorem check_bootstrap_zero_items_counterexample :
    (check ([] : List Item) ([] : Database) (fun _ => true)).committed
        = false ∧
    (check ([] : List Item) ([] : Database) (fun _ => true)).sent = [] :=
  ⟨rfl, rfl⟩

/-- C4 amended: a bootstrap cycle (empty database at cycle start) never
dispatches a notification; when the current item list is nonempty it
commits the database derived from the full item list, covering every
current item; when the current item list is empty it commits nothing and
the database stays empty. -/
theorem check_bootstrap (currentItems : List Item) (sendOk : Action → Bool) :
    (check currentItems [] sendOk).sent = [] ∧
    (currentItems ≠ [] →
      (check currentItems [] sendOk).committed = true ∧
      (check currentItems [] sendOk).database = updateDatabase currentItems ∧
      ∀ item ∈ currentItems,
        dbLookup (check currentItems [] sendOk).database item.id ≠ none) ∧
    (currentItems = [] →
      (check currentItems [] sendOk).committed = false ∧
      (check currentItems [] sendOk).database = []) := by
  cases hitems : currentItems with
  | nil =>
      refine ⟨rfl, fun hne => absurd rfl hne, fun _ => ⟨rfl, rfl⟩⟩
  | cons i rest =>
      have hact : detectChanges (i :: rest) ([] : Database) ≠ [] := by
        rw [detectChanges_empty_db]
        exact List.cons_ne_nil _ _
      have hch := check_first_run sendOk hact
      refine ⟨by rw [hch], fun _ => ⟨by rw [hch], by rw [hch], ?_⟩,
        fun h0 => List.noConfusion h0⟩
      intro item hmem
      rw [hch]
      intro hnone
      have hsome := foldl_dbInsertItem_isSome (i :: rest) item.id []
        (List.mem_map_of_mem Item.id hmem)
      rw [← updateDatabase_def, hnone] at hsome
      exact Bool.noConfusion hsome

/-- C4 amended witness: a bootstrap cycle over one concrete item commits
and sends nothing. -/
theorem check_bootstrap_witness :
    (check [(⟨"1", "A", CONTENT_TYPES.TEXT, "u"⟩ : Item)] ([] : Database)
        (fun _ => true)).committed = true ∧
    (check [(⟨"1", "A", CONTENT_TYPES.TEXT, "u"⟩ : Item)] ([] : Database)
        (fun _ => true)).sent = [] :=
  have h := check_bootstrap [(⟨"1", "A", CONTENT_TYPES.TEXT, "u"⟩ : Item)]
    (fun _ => true)
  ⟨(h.2.1 (List.cons_ne_nil _ _)).1, h.1⟩

/-- C5 counterexample: a non-bootstrap cycle with zero detected events, here
caused by a title-only change, commits nothing and leaves the database
different from the projection of the current item list, contradicting the
claim for the zero-event case. -/
theorem check_zero_events_counterexample :
    ([("1", (⟨"A", CONTENT_TYPES.TEXT⟩ : StoredRecord))] : Database) ≠ [] ∧
    detectChanges [(⟨"1", "B", CONTENT_TYPES.TEXT, "u"⟩ : Item)]
        [("1", (⟨"A", CONTENT_TYPES.TEXT⟩ : StoredRecord))] = [] ∧
    (check [(⟨"1", "B", CONTENT_TYPES.TEXT, "u"⟩ : Item)]
        [("1", (⟨"A", CONTENT_TYPES.TEXT⟩ : StoredRecord))]
        (fun _ => true)).committed = false ∧
    (check [(⟨"1", "B", CONTENT_TYPES.TEXT, "u"⟩ : Item)]
        [("1", (⟨"A", CONTENT_TYPES.TEXT⟩ : StoredRecord))]
        (fun _ => true)).database ≠
      updateDatabase [(⟨"1", "B", CONTENT_TYPES.TEXT, "u"⟩ : Item)] := by
  refine ⟨by decide, by decide, by decide, by decide⟩

/-- C5 amended: in a non-bootstrap cycle with at least one detected event
whose dispatch fully succeeds, the database is committed and equals the
wholesale projection of the current item list; a non-bootstrap cycle with
zero detected events commits nothing and leaves the prior database in
place. -/
theorem check_commit_policy (currentItems : List Item) (database : Database)
    (sendOk : Action → Bool) (hdb : database ≠ []) :
    (∀ sent, detectChanges currentItems database ≠ [] →
      processActions sendOk (detectChanges currentItems database)
        = .allSent sent →
      (check currentItems database sendOk).committed = true ∧
      (check currentItems database sendOk).database
        = updateDatabase currentItems) ∧
    (detectChanges currentItems database = [] →
      (check currentItems database sendOk).committed = false ∧
      (check currentItems database sendOk).database = database) := by
  constructor
  · intro sent hact h
    rw [check_dispatch_ok hdb hact h]
    exact ⟨rfl, rfl⟩
  · intro h
    rw [check_no_actions sendOk h]
    exact ⟨rfl, rfl⟩

/-- C5 amended witness: a concrete upgrade event whose dispatch succeeds
commits the projected database. -/
theorem check_commit_policy_witness :
    (check [(⟨"1", "A", CONTENT_TYPES.VIDEO, "u"⟩ : Item)]
        [("1", (⟨"A", CONTENT_TYPES.TEXT⟩ : StoredRecord))]
        (fun _ => true)).committed = true ∧
    (check [(⟨"1", "A", CONTENT_TYPES.VIDEO, "u"⟩ : Item)]
        [("1", (⟨"A", CONTENT_TYPES.TEXT⟩ : StoredRecord))]
        (fun _ => true)).database
      = updateDatabase [(⟨"1", "A", CONTENT_TYPES.VIDEO, "u"⟩ : Item)] :=
  (check_commit_policy [(⟨"1", "A", CONTENT_TYPES.VIDEO, "u"⟩ : Item)]
      [("1", (⟨"A", CONTENT_TYPES.TEXT⟩ : StoredRecord))]
      (fun _ => true) (by decide)).1
    [{ type := EVENT_TYPES.UPDATE,
       data := ⟨"1", "A", CONTENT_TYPES.VIDEO, "u"⟩ }]
    (by decide) (by decide)

/-- C6: updateDatabase produces a database whose keys are exactly the ids
of the current items, each id mapped to the title and type projection of
its item; an id absent from the current item list, such as one present
only in a prior database, is absent from the result — a full replace,
never a merge. -/
theorem updateDatabase_replace (items : List Item)
    (hnd : (items.map Item.id).Nodup) :
    (∀ id : String,
      dbLookup (updateDatabase items) id ≠ none ↔ id ∈ items.map Item.id) ∧
    (∀ item ∈ items,
      dbLookup (updateDatabase items) item.id = some ⟨item.title, item.type⟩) := by
  constructor
  · intro id
    constructor
    · intro hne
      by_contra hmem
      rw [updateDatabase_def, foldl_dbInsertItem_notMem items id [] hmem] at hne
      exact hne rfl
    · intro hmem
      have hsome := foldl_dbInsertItem_isSome items id [] hmem
      rw [← updateDatabase_def] at hsome
      intro hnone
      rw [hnone] at hsome
      exact Bool.noConfusion hsome
  · intro item hmem
    rw [updateDatabase_def]
    exact foldl_dbInsertItem_mem_nodup items [] hnd item hmem

/-- C6 witness: a concrete singleton list produces exactly its own key
with the projected record, and a stale key is absent. -/
theorem updateDatabase_replace_witness :
    dbLookup (updateDatabase [(⟨"1", "A", CONTENT_TYPES.TEXT, "u"⟩ : Item)]) "1"
      = some ⟨"A", CONTENT_TYPES.TEXT⟩ ∧
    dbLookup (updateDatabase [(⟨"1", "A", CONTENT_TYPES.TEXT, "u"⟩ : Item)]) "2"
      = none := by
  have h := updateDatabase_replace
    [(⟨"1", "A", CONTENT_TYPES.TEXT, "u"⟩ : Item)] (by decide)
  constructor
  · exact h.2 ⟨"1", "A", CONTENT_TYPES.TEXT, "u"⟩ (List.mem_singleton.mpr rfl)
  · by_contra hne
    have hmem := (h.1 "2").mp hne
    exact absurd hmem (by decide)

/-- C7: a list node whose link target contains no digit at all is skipped
by the scrape callback without error and contributes no item, as is a node
without a link target; and a node whose trimmed own-text title is empty is
assigned the sentinel placeholder title. -/
theorem scrapeItem_skip_and_sentinel (baseUrl : String) (node : Node) :
    (node.href = none → scrapeItem baseUrl node = none) ∧
    (∀ href, node.href = some href → (∀ c ∈ href.data, c.isDigit = false) →
      scrapeItem baseUrl node = none ∧
      ∀ nodes, scrapeContent baseUrl (node :: nodes)
        = scrapeContent baseUrl nodes) ∧
    (jsTrim node.titleRaw = "" →
      ∀ item, scrapeItem baseUrl node = some item →
        item.title = "Unknown Title") := by
  refine ⟨?_, ?_, ?_⟩
  · intro h
    unfold scrapeItem
    rw [h]
  · intro href hh hdig
    have hnone : scrapeItem baseUrl node = none := by
      simp only [scrapeItem, hh, matchSlashDigits_none_of_noDigits href.data hdig]
    exact ⟨hnone, fun nodes => by simp only [scrapeContent, hnone]⟩
  · intro htrim item hitem
    unfold scrapeItem at hitem
    split at hitem
    · exact Option.noConfusion hitem
    · split at hitem
      · exact Option.noConfusion hitem
      · injection hitem with h2
        rw [← h2]
        simp only [htrim, if_pos]

/-- C7 witness: a concrete digitless link target is skipped, an absent
link target is skipped, and a concrete whitespace title yields the
sentinel. -/
theorem scrapeItem_skip_and_sentinel_witness :
    scrapeItem "b" ⟨some "/courses/take/x", "T", ""⟩ = none ∧
    scrapeItem "b" ⟨none, "T", ""⟩ = none ∧
    (⟨"123", "Unknown Title", CONTENT_TYPES.OTHER, "b/123"⟩ : Item).title
      = "Unknown Title" := by
  refine ⟨?_, ?_, ?_⟩
  · exact ((scrapeItem_skip_and_sentinel "b"
      ⟨some "/courses/take/x", "T", ""⟩).2.1 "/courses/take/x" rfl (by decide)).1
  · exact (scrapeItem_skip_and_sentinel "b" ⟨none, "T", ""⟩).1 rfl
  · exact (scrapeItem_skip_and_sentinel "b" ⟨some "/123", "  ", ""⟩).2.2
      (by decide) ⟨"123", "Unknown Title", CONTENT_TYPES.OTHER, "b/123"⟩
      (by decide)

/-- C8: extractThumbnail is total over its modelled inputs: any navigation
error yields the explicit not-found result none instead of propagating,
and a successful navigation yields the first truthy thumbnail in document
order across the frames (frames in order, script blocks within each frame
in order), none when every frame lacks one. -/
theorem extractThumbnail_spec (e : String)
    (frames : List (List ScriptBlock)) :
    extractThumbnail (Except.error e) = none ∧
    extractThumbnail (Except.ok frames)
      = ((frames.map (fun f => f.filterMap scriptThumb)).flatten).head? :=
  ⟨rfl, firstThumb_eq_head frames⟩

/-- C9: every read failure of the database file (missing, unreadable or
unparseable) degrades to the empty default object without raising, a
successful read returns the stored content, a successful write returns
normally, and a write failure propagates its error to the caller instead
of being swallowed. -/
theorem storage_error_policy (db : Database) (msg : String) :
    readJSON .missing = [] ∧ readJSON .unreadable = [] ∧
    readJSON .invalid = [] ∧ readJSON (.valid db) = db ∧
    writeJSON .ok = Except.ok () ∧
    writeJSON (.ioError msg) = Except.error msg :=
  ⟨rfl, rfl, rfl, rfl, rfl, rfl⟩

end CourseBot
